import Mathlib

/-!
Verification development for the point-to-point TCP transport layer
(`src/network/network.rs`, `src/node.rs`, `src/main.rs`).

The embedding models:
* the message record `NetworkMessage` (fields `sender`, `addresses`, `message`
  as used throughout `network.rs`);
* the wire codec (length-delimited frames carrying a binary encoding of the
  record — modelled from the spec, the concrete `message.rs` / bincode code is
  not among the provided sources);
* the Transport Coordinator loop `NetworkSender::run` as a per-destination
  step function over an explicit outcome environment;
* the Outbound Peer Worker loop of `NetworkSender::spawn_worker`;
* the Retransmission Scheduler `NetworkRetransmitter::run` as a step relation;
* the Inbound Peer Worker loop of `NetworkReceiver::spawn_worker`.
-/

/-- A peer network endpoint: four IPv4 octets and a port
(`std::net::SocketAddr` restricted to the V4 shape `main.rs` builds). -/
structure SocketAddr where
  ip0 : Nat
  ip1 : Nat
  ip2 : Nat
  ip3 : Nat
  port : Nat
deriving DecidableEq, Repr

/-- The application message record (`crate::message::NetworkMessage`): its
fields `sender`, `addresses`, `message` appear literally in
`network.rs` (e.g. the retransmitter rebuild at lines 27–31).
Bytes are modelled as naturals below 256. -/
structure NetworkMessage where
  sender : Nat
  addresses : List SocketAddr
  message : List Nat
deriving DecidableEq, Repr

/-- Well-formedness of an endpoint: octets are bytes, the port fits in 16
bits (true of every `SocketAddr` the Rust type can hold). -/
def SocketAddr.valid (a : SocketAddr) : Prop :=
  a.ip0 < 256 ∧ a.ip1 < 256 ∧ a.ip2 < 256 ∧ a.ip3 < 256 ∧ a.port < 65536

instance (a : SocketAddr) : Decidable a.valid := by
  unfold SocketAddr.valid; infer_instance

/-- Well-formedness of a message record: the sender and the list lengths fit
in the 64-bit fields the encoding uses, endpoints are well formed, and the
payload is a byte sequence. -/
def NetworkMessage.valid (m : NetworkMessage) : Prop :=
  m.sender < 2 ^ 64 ∧ m.addresses.length < 2 ^ 64 ∧
    (∀ a ∈ m.addresses, a.valid) ∧ m.message.length < 2 ^ 64 ∧
    ∀ b ∈ m.message, b < 256

instance (m : NetworkMessage) : Decidable m.valid := by
  unfold NetworkMessage.valid; infer_instance

/-- Little-endian fixed-width encoding of a natural into `k` bytes. -/
def encFixed : Nat → Nat → List Nat
  | 0, _ => []
  | k + 1, n => n % 256 :: encFixed k (n / 256)

/-- Read back a `k`-byte little-endian natural, returning it with the
remaining bytes; fails on a short input. -/
def decFixed : Nat → List Nat → Option (Nat × List Nat)
  | 0, rest => some (0, rest)
  | _ + 1, [] => none
  | k + 1, b :: rest =>
    (decFixed k rest).map fun p => (b + 256 * p.1, p.2)

/-- Modelled from the spec: the payload encoding of one endpoint, an
address/port pair — four octet bytes then a 2-byte port
(`message.rs` and the bincode encoding are not among the provided sources). -/
def encAddr (a : SocketAddr) : List Nat :=
  encFixed 1 a.ip0 ++ encFixed 1 a.ip1 ++ encFixed 1 a.ip2 ++ encFixed 1 a.ip3 ++
    encFixed 2 a.port

/-- Decode one endpoint from the head of a byte sequence. -/
def decAddr (bs : List Nat) : Option (SocketAddr × List Nat) :=
  (decFixed 1 bs).bind fun p0 =>
  (decFixed 1 p0.2).bind fun p1 =>
  (decFixed 1 p1.2).bind fun p2 =>
  (decFixed 1 p2.2).bind fun p3 =>
  (decFixed 2 p3.2).map fun pp => (⟨p0.1, p1.1, p2.1, p3.1, pp.1⟩, pp.2)

/-- Decode exactly `k` consecutive endpoints. -/
def decAddrList : Nat → List Nat → Option (List SocketAddr × List Nat)
  | 0, rest => some ([], rest)
  | k + 1, rest =>
    (decAddr rest).bind fun p =>
    (decAddrList k p.2).map fun q => (p.1 :: q.1, q.2)

/-- Split off exactly `n` raw payload bytes; fails on a short input. -/
def decBytes (n : Nat) (bs : List Nat) : Option (List Nat × List Nat) :=
  if n ≤ bs.length then some (bs.take n, bs.drop n) else none

/-- Modelled from the spec: the deterministic binary encoding of the message
record in fixed field order — sender identifier (64-bit integer), destination
endpoint list (length then address/port pairs), opaque payload bytes (length
then raw bytes). -/
def encMsg (m : NetworkMessage) : List Nat :=
  encFixed 8 m.sender ++ encFixed 8 m.addresses.length ++
    (m.addresses.map encAddr).flatten ++ encFixed 8 m.message.length ++ m.message

/-- Modelled from the spec: decode a message record from a byte sequence,
field by field in the fixed order, returning the record and any trailing
bytes; fails on malformed input. -/
def decMsg (bs : List Nat) : Option (NetworkMessage × List Nat) :=
  (decFixed 8 bs).bind fun ps =>
  (decFixed 8 ps.2).bind fun pn =>
  (decAddrList pn.1 pn.2).bind fun pa =>
  (decFixed 8 pa.2).bind fun pl =>
  (decBytes pl.1 pl.2).map fun pp => (⟨ps.1, pa.1, pp.1⟩, pp.2)

/-- What `bincode::deserialize` yields on a full frame: the decoded record. -/
def decodeMsg (bs : List Nat) : Option NetworkMessage :=
  (decMsg bs).map fun p => p.1

/-- The fixed retransmission delay in milliseconds
(`Duration::from_millis(30)` in `NetworkRetransmitter::delay`). -/
def retransmitDelayMs : Nat := 30

/-- The fresh envelope `NetworkRetransmitter::run` builds from a failure pair
(lines 27–31): same sender and payload, destination list exactly the single
failed address. -/
def retransmitFresh (mes : NetworkMessage) (addr : SocketAddr) : NetworkMessage :=
  { sender := mes.sender, addresses := [addr], message := mes.message }

/-- A pending retry inside the scheduler: the timer still to elapse and the
envelope to resubmit (`pending.push(Self::delay(new_message))`). -/
structure PendingRetry where
  delayMs : Nat
  message : NetworkMessage
deriving DecidableEq, Repr

/-- The two branches of the retransmitter's `select!` loop: a failure arrives
on `rx`, or one of the concurrently pending timers expires. -/
inductive RetransmitterEvent
  | recvFailure (mes : NetworkMessage) (addr : SocketAddr)
  | timerExpired (i : Nat)
deriving DecidableEq, Repr

/-- One iteration of `NetworkRetransmitter::run`'s loop: on a received
failure, push a delayed fresh single-destination envelope onto `pending`; on
a timer expiry, remove that entry and send its message to the Transport
Coordinator's inbound queue (the `tx.send(mes)` branch). Returns the new
pending list and the messages resubmitted to the coordinator. -/
def retransmitterStep (pending : List PendingRetry) (e : RetransmitterEvent) :
    List PendingRetry × List NetworkMessage :=
  match e with
  | .recvFailure mes addr =>
    (pending ++ [⟨retransmitDelayMs, retransmitFresh mes addr⟩], [])
  | .timerExpired i =>
    match pending[i]? with
    | some p => (pending.eraseIdx i, [p.message])
    | none => (pending, [])

/-- The connect-result signal the Coordinator awaits on `rx_ok`:
`Ok(true)`, `Ok(false)`, or `Err(_)` (the one-shot closed before a signal). -/
inductive ConnectSignal
  | success
  | failure
  | closed
deriving DecidableEq, Repr

/-- The environment's outcomes for one destination of one envelope:
whether a handoff on an existing worker channel succeeds
(`tx.send(m.clone()).await` at line 79), the connect signal of a freshly
spawned worker, and whether the enqueue on the fresh worker's channel
succeeds (line 96). -/
structure DestOutcome where
  handoff : Bool
  connect : ConnectSignal
  enqueue : Bool
deriving DecidableEq, Repr

/-- Observable actions of `NetworkSender::run` while processing one
destination: a handoff attempt on an existing worker channel, a
`spawn_worker` call, the enqueue attempt on a fresh worker's channel, and a
send to the Retransmission Scheduler. -/
inductive SendEvent
  | handoffAttempt (a : SocketAddr) (m : NetworkMessage)
  | spawnWorker (a : SocketAddr)
  | enqueueNew (a : SocketAddr) (m : NetworkMessage)
  | retransmitSend (m : NetworkMessage) (a : SocketAddr)
deriving DecidableEq, Repr

/-- `NetworkSender::run`'s body for a single destination `a` of envelope `m`
(lines 75–119). The `senders` map is modelled by its key set. Mirrors the
source: an existing entry gets a handoff attempt and `spawn` is set iff it
errs; with no entry `spawn` is true; on spawn, a success signal leads to the
enqueue on the fresh channel and the map insert happens only when that
enqueue returns `Ok`; a failure signal or a closed signal channel sets
`retransmit`, which sends `(m, a)` to the scheduler. -/
def processDest (senders : List SocketAddr) (m : NetworkMessage) (a : SocketAddr)
    (o : DestOutcome) : List SocketAddr × List SendEvent :=
  let attempt : List SendEvent := if a ∈ senders then [.handoffAttempt a m] else []
  let spawn : Bool := if a ∈ senders then !o.handoff else true
  if spawn then
    match o.connect with
    | .success =>
      if o.enqueue then
        (if a ∈ senders then senders else a :: senders,
          attempt ++ [.spawnWorker a, .enqueueNew a m])
      else
        (senders, attempt ++ [.spawnWorker a, .enqueueNew a m])
    | .failure => (senders, attempt ++ [.spawnWorker a, .retransmitSend m a])
    | .closed => (senders, attempt ++ [.spawnWorker a, .retransmitSend m a])
  else
    (senders, attempt)

/-- The `for address in &m.addresses` fan-out loop of `NetworkSender::run`,
threading the map's key set and collecting events; `outs i` is the
environment's outcome for the `i`-th destination. -/
def processAddrs (outs : Nat → DestOutcome) (m : NetworkMessage) :
    Nat → List SocketAddr → List SocketAddr → List SocketAddr × List SendEvent
  | _, senders, [] => (senders, [])
  | i, senders, a :: rest =>
    let r1 := processDest senders m a (outs i)
    let r2 := processAddrs outs m (i + 1) r1.1 rest
    (r2.1, r1.2 ++ r2.2)

/-- Processing of one received envelope by `NetworkSender::run`. -/
def processEnvelope (senders : List SocketAddr) (m : NetworkMessage)
    (outs : Nat → DestOutcome) : List SocketAddr × List SendEvent :=
  processAddrs outs m 0 senders m.addresses

/-- Whether an event is a send attempt towards destination `a`: a handoff on
an existing worker channel for `a`, or the spawn of a fresh worker for `a`. -/
def isAttemptFor (a : SocketAddr) : SendEvent → Bool
  | .handoffAttempt b _ => b == a
  | .spawnWorker b => b == a
  | _ => false

/-- Whether an event hands a failure to the Retransmission Scheduler. -/
def isRetransmitEvent : SendEvent → Bool
  | .retransmitSend _ _ => true
  | _ => false

/-- The envelopes handed to Outbound Peer Workers (by handoff on an existing
channel or enqueue on a fresh one), each paired with the worker's endpoint. -/
def workerEnvelopes (events : List SendEvent) : List (SocketAddr × NetworkMessage) :=
  events.filterMap fun e =>
    match e with
    | .handoffAttempt a m => some (a, m)
    | .enqueueNew a m => some (a, m)
    | _ => none

/-- The send loop of an Outbound Peer Worker after a successful connect
(`NetworkSender::spawn_worker`, lines 154–170): dequeue a message, serialize
it, write the frame; on a write error send `(message, address)` to the
retransmitter and return. `writeOk i` is the outcome of the `i`-th write
attempt. Returns the frames attempted in order, the failure pairs sent to
the retransmitter, and whether the worker terminated on a write failure. -/
def workerLoop (address : SocketAddr) (writeOk : Nat → Bool) :
    Nat → List NetworkMessage → List (List Nat) × List (NetworkMessage × SocketAddr) × Bool
  | _, [] => ([], [], false)
  | i, msg :: rest =>
    let bytes := encMsg msg
    if writeOk i then
      let r := workerLoop address writeOk (i + 1) rest
      (bytes :: r.1, r.2.1, r.2.2)
    else
      ([bytes], [(msg, address)], true)

/-- One item produced by the framed inbound stream (`transport.next()`):
either a complete frame's bytes or a stream error. -/
inductive FrameRead
  | okFrame (bytes : List Nat)
  | readFail
deriving DecidableEq, Repr

/-- How the inbound worker's loop ends: the stream is exhausted (peer
closed), the worker returns on a stream error, or the
`bincode::deserialize(..).unwrap()` panics on a malformed frame. -/
inductive WorkerExit
  | cleanClose
  | readError
  | panicked
deriving DecidableEq, Repr

/-- The read loop of an Inbound Peer Worker (`NetworkReceiver::spawn_worker`,
lines 221–238): for each `Ok` frame, deserialize with `unwrap` — a decode
failure panics — then attempt `deliver.send`; a failed delivery only logs
and the loop continues. A stream error returns. `deliverOk i` is the
outcome of the `i`-th delivery attempt. Returns the delivered messages and
how the worker ended. -/
def inboundWorker (deliverOk : Nat → Bool) :
    Nat → List FrameRead → List NetworkMessage × WorkerExit
  | _, [] => ([], .cleanClose)
  | _, .readFail :: _ => ([], .readError)
  | i, .okFrame bytes :: rest =>
    match decodeMsg bytes with
    | none => ([], .panicked)
    | some msg =>
      let r := inboundWorker deliverOk (i + 1) rest
      (if deliverOk i then msg :: r.1 else r.1, r.2)

/-- Sample endpoints and message, as built by `main.rs`
(`127.0.0.1:123x`) with payload bytes of the string `"pi"`. -/
def addrA : SocketAddr := ⟨127, 0, 0, 1, 1230⟩

/-- A second sample endpoint. -/
def addrB : SocketAddr := ⟨127, 0, 0, 1, 1231⟩

/-- A sample two-destination message. -/
def msgAB : NetworkMessage := ⟨1, [addrA, addrB], [112, 105]⟩

theorem decFixed_encFixed (k : Nat) (n : Nat) (rest : List Nat) :
    decFixed k (encFixed k n ++ rest) = some (n % 256 ^ k, rest) := by
  induction k generalizing n with
  | zero => simp [encFixed, decFixed, Nat.mod_one]
  | succ k ih =>
    have harith : n % 256 ^ (k + 1) = n % 256 + 256 * (n / 256 % 256 ^ k) := by
      rw [pow_succ, Nat.mul_comm (256 ^ k) 256, Nat.mod_mul]
    simp [encFixed, decFixed, ih, harith]

theorem decFixed_encFixed_of_lt {k n : Nat} (h : n < 256 ^ k) (rest : List Nat) :
    decFixed k (encFixed k n ++ rest) = some (n, rest) := by
  rw [decFixed_encFixed, Nat.mod_eq_of_lt h]

theorem decAddr_encAddr {a : SocketAddr} (h : a.valid) (rest : List Nat) :
    decAddr (encAddr a ++ rest) = some (a, rest) := by
  obtain ⟨h0, h1, h2, h3, hp⟩ := h
  simp only [encAddr, List.append_assoc, decAddr,
    decFixed_encFixed_of_lt (show a.ip0 < 256 ^ 1 by simpa using h0),
    decFixed_encFixed_of_lt (show a.ip1 < 256 ^ 1 by simpa using h1),
    decFixed_encFixed_of_lt (show a.ip2 < 256 ^ 1 by simpa using h2),
    decFixed_encFixed_of_lt (show a.ip3 < 256 ^ 1 by simpa using h3),
    decFixed_encFixed_of_lt (show a.port < 256 ^ 2 by norm_num; exact hp),
    Option.some_bind, Option.map_some']

theorem decAddrList_encAddrs {as : List SocketAddr} (h : ∀ a ∈ as, a.valid)
    (rest : List Nat) :
    decAddrList as.length ((as.map encAddr).flatten ++ rest) = some (as, rest) := by
  induction as with
  | nil => simp [decAddrList]
  | cons a as ih =>
    simp only [List.map_cons, List.flatten_cons, List.length_cons, List.append_assoc,
      decAddrList, decAddr_encAddr (h a (List.mem_cons_self a as)),
      ih fun x hx => h x (List.mem_cons_of_mem a hx),
      Option.some_bind, Option.map_some']

theorem decBytes_self (payload rest : List Nat) :
    decBytes payload.length (payload ++ rest) = some (payload, rest) := by
  simp [decBytes, List.take_append, List.drop_append]

/-- C4: encode→decode round trip. For every well-formed message record —
any payload length, zero included — decoding the encoding reproduces the
sender identifier, destination list and payload exactly, with no bytes left
over. -/
theorem encMsg_decMsg_roundtrip (m : NetworkMessage) (h : m.valid) :
    decMsg (encMsg m) = some (m, []) := by
  obtain ⟨hs, hn, ha, hl, _⟩ := h
  have h64 : (256 : Nat) ^ 8 = 2 ^ 64 := by norm_num
  have hs' : m.sender < 256 ^ 8 := by rw [h64]; exact hs
  have hn' : m.addresses.length < 256 ^ 8 := by rw [h64]; exact hn
  have hl' : m.message.length < 256 ^ 8 := by rw [h64]; exact hl
  have hbytes := decBytes_self m.message []
  rw [List.append_nil] at hbytes
  simp only [encMsg, List.append_assoc, decMsg,
    decFixed_encFixed_of_lt hs', decFixed_encFixed_of_lt hn',
    decAddrList_encAddrs ha, decFixed_encFixed_of_lt hl',
    List.append_nil, hbytes, Option.some_bind, Option.map_some']

/-- Witness for C4 at two concrete records, one with an empty payload and one
with a two-destination list and nonempty payload. -/
theorem encMsg_decMsg_roundtrip_witness :
    decMsg (encMsg ⟨1, [⟨127, 0, 0, 1, 1230⟩], []⟩) =
      some (⟨1, [⟨127, 0, 0, 1, 1230⟩], []⟩, []) ∧
    decMsg (encMsg ⟨7, [⟨127, 0, 0, 1, 1231⟩, ⟨127, 0, 0, 1, 1232⟩], [112, 105]⟩) =
      some (⟨7, [⟨127, 0, 0, 1, 1231⟩, ⟨127, 0, 0, 1, 1232⟩], [112, 105]⟩, []) :=
  ⟨encMsg_decMsg_roundtrip _ (by decide), encMsg_decMsg_roundtrip _ (by decide)⟩

theorem processDest_attempt (senders : List SocketAddr) (m : NetworkMessage)
    (a : SocketAddr) (o : DestOutcome) :
    (processDest senders m a o).2.any (isAttemptFor a) = true := by
  rcases o with ⟨ho, oc, oe⟩
  by_cases hc : a ∈ senders <;> cases ho <;> cases oc <;> cases oe <;>
    simp [processDest, isAttemptFor, hc]

theorem processAddrs_attempt_mem (outs : Nat → DestOutcome) (m : NetworkMessage) :
    ∀ (addrs : List SocketAddr) (i : Nat) (senders : List SocketAddr)
      (a : SocketAddr), a ∈ addrs →
      (processAddrs outs m i senders addrs).2.any (isAttemptFor a) = true := by
  intro addrs
  induction addrs with
  | nil => intro i senders a h; exact absurd h (List.not_mem_nil a)
  | cons b rest ih =>
    intro i senders a h
    simp only [processAddrs, List.any_append, Bool.or_eq_true]
    rcases List.mem_cons.mp h with rfl | h
    · exact Or.inl (processDest_attempt _ _ _ _)
    · exact Or.inr (ih _ _ _ h)

/-- C3: fan-out attempts every destination. For every envelope the
Coordinator processes and every destination endpoint in it, whatever the
outcomes the environment assigns to every destination (handoffs, connect
signals and enqueues succeeding or failing in any combination), the
processing emits at least one send attempt — a handoff to an existing worker
or the spawn of a fresh one — for that destination. -/
theorem coordinator_attempts_all_destinations (senders : List SocketAddr)
    (m : NetworkMessage) (outs : Nat → DestOutcome) (a : SocketAddr)
    (ha : a ∈ m.addresses) :
    (processEnvelope senders m outs).2.any (isAttemptFor a) = true :=
  processAddrs_attempt_mem outs m m.addresses 0 senders a ha

/-- Witness for C3: a two-destination envelope, empty worker map, with the
second destination's outcomes all failing; the first destination still gets
an attempt — and symmetrically the second. -/
theorem coordinator_attempts_all_destinations_witness :
    (processEnvelope [] msgAB
        (fun i => if i == 0 then ⟨true, ConnectSignal.success, true⟩
          else ⟨false, ConnectSignal.failure, false⟩)).2.any
      (isAttemptFor addrA) = true ∧
    (processEnvelope [] msgAB
        (fun i => if i == 0 then ⟨true, ConnectSignal.success, true⟩
          else ⟨false, ConnectSignal.failure, false⟩)).2.any
      (isAttemptFor addrB) = true :=
  ⟨coordinator_attempts_all_destinations [] msgAB _ addrA (by decide),
    coordinator_attempts_all_destinations [] msgAB _ addrB (by decide)⟩

/-- C6: handoff and spawn logic of the Coordinator per destination. With a
PeerLink present a non-blocking handoff is attempted; a worker is spawned
exactly when no PeerLink exists or the handoff fails (closed queue); and a
successful handoff ends processing for the destination — map unchanged, no
further action. -/
theorem coordinator_handoff_spawn_logic (senders : List SocketAddr)
    (m : NetworkMessage) (a : SocketAddr) (o : DestOutcome) :
    (a ∈ senders →
      SendEvent.handoffAttempt a m ∈ (processDest senders m a o).2) ∧
    (SendEvent.spawnWorker a ∈ (processDest senders m a o).2 ↔
      a ∉ senders ∨ o.handoff = false) ∧
    (a ∈ senders → o.handoff = true →
      processDest senders m a o = (senders, [SendEvent.handoffAttempt a m])) := by
  rcases o with ⟨ho, oc, oe⟩
  by_cases hc : a ∈ senders <;> cases ho <;> cases oc <;> cases oe <;>
    simp [processDest, hc]

/-- Witness for C6 at a map holding the destination and an all-success
outcome. -/
theorem coordinator_handoff_spawn_logic_witness :
    ((addrA ∈ [addrA] →
      SendEvent.handoffAttempt addrA msgAB ∈
        (processDest [addrA] msgAB addrA ⟨true, ConnectSignal.success, true⟩).2) ∧
    (SendEvent.spawnWorker addrA ∈
        (processDest [addrA] msgAB addrA ⟨true, ConnectSignal.success, true⟩).2 ↔
      addrA ∉ [addrA] ∨ true = false) ∧
    (addrA ∈ [addrA] → true = true →
      processDest [addrA] msgAB addrA ⟨true, ConnectSignal.success, true⟩ =
        ([addrA], [SendEvent.handoffAttempt addrA msgAB]))) :=
  coordinator_handoff_spawn_logic [addrA] msgAB addrA ⟨true, ConnectSignal.success, true⟩

/-- C7: a connect-failure signal, or a signal channel that closes before any
signal, makes the Coordinator install no PeerLink (the map is unchanged) and
hand the failure, scoped to the single destination, to the Retransmission
Scheduler — whose rebuilt envelope targets exactly that one address. -/
theorem connect_failure_no_link_retransmit (senders : List SocketAddr)
    (m : NetworkMessage) (a : SocketAddr) (o : DestOutcome)
    (hspawn : a ∉ senders ∨ o.handoff = false)
    (h : o.connect = ConnectSignal.failure ∨ o.connect = ConnectSignal.closed) :
    (processDest senders m a o).1 = senders ∧
    SendEvent.retransmitSend m a ∈ (processDest senders m a o).2 ∧
    (retransmitFresh m a).addresses = [a] := by
  rcases o with ⟨ho, oc, oe⟩
  rcases h with h | h <;> cases h <;>
    by_cases hc : a ∈ senders <;> cases ho <;> cases oe <;>
      simp_all [processDest, retransmitFresh]

/-- Witness for C7: empty map, connect fails. -/
theorem connect_failure_no_link_retransmit_witness :
    (processDest [] msgAB addrA ⟨true, ConnectSignal.failure, true⟩).1 = [] ∧
    SendEvent.retransmitSend msgAB addrA ∈
      (processDest [] msgAB addrA ⟨true, ConnectSignal.failure, true⟩).2 ∧
    (retransmitFresh msgAB addrA).addresses = [addrA] :=
  connect_failure_no_link_retransmit [] msgAB addrA ⟨true, ConnectSignal.failure, true⟩
    (Or.inl (by decide)) (Or.inl rfl)

/-- C9: when the fresh worker signals connect success but the enqueue on its
channel errs, the Coordinator leaves the map unchanged (no PeerLink
installed) and emits no retransmission — the message is silently dropped for
that destination. -/
theorem connect_success_enqueue_error_drop (senders : List SocketAddr)
    (m : NetworkMessage) (a : SocketAddr) (o : DestOutcome)
    (hspawn : a ∉ senders ∨ o.handoff = false)
    (h1 : o.connect = ConnectSignal.success) (h2 : o.enqueue = false) :
    (processDest senders m a o).1 = senders ∧
    (processDest senders m a o).2.any isRetransmitEvent = false := by
  rcases o with ⟨ho, oc, oe⟩
  cases h1; cases h2
  by_cases hc : a ∈ senders <;> cases ho <;>
    simp_all [processDest, isRetransmitEvent]

/-- Witness for C9: empty map, success signal, failing enqueue. -/
theorem connect_success_enqueue_error_drop_witness :
    (processDest [] msgAB addrA ⟨true, ConnectSignal.success, false⟩).1 = [] ∧
    (processDest [] msgAB addrA
        ⟨true, ConnectSignal.success, false⟩).2.any isRetransmitEvent = false :=
  connect_success_enqueue_error_drop [] msgAB addrA ⟨true, ConnectSignal.success, false⟩
    (Or.inl (by decide)) rfl rfl

/-- C2 counterexample: a two-destination envelope is handed to the first
destination's worker still carrying both destinations — the envelope inside
an Outbound Peer Worker does not target exactly one endpoint. -/
theorem worker_envelope_single_destination_counterexample :
    (addrA, msgAB) ∈ workerEnvelopes (processEnvelope [] msgAB
      (fun _ => ⟨true, ConnectSignal.success, true⟩)).2 ∧
    msgAB.addresses ≠ [addrA] := by decide

theorem processDest_envelopes (senders : List SocketAddr) (m : NetworkMessage)
    (a : SocketAddr) (o : DestOutcome) :
    ∀ p ∈ workerEnvelopes (processDest senders m a o).2, p.2 = m := by
  rcases o with ⟨ho, oc, oe⟩
  by_cases hc : a ∈ senders <;> cases ho <;> cases oc <;> cases oe <;>
    simp [processDest, workerEnvelopes, hc]

theorem processAddrs_envelopes (outs : Nat → DestOutcome) (m : NetworkMessage) :
    ∀ (addrs : List SocketAddr) (i : Nat) (senders : List SocketAddr)
      (p : SocketAddr × NetworkMessage),
      p ∈ workerEnvelopes (processAddrs outs m i senders addrs).2 → p.2 = m := by
  intro addrs
  induction addrs with
  | nil => intro i senders p h; simp [processAddrs, workerEnvelopes] at h
  | cons b rest ih =>
    intro i senders p h
    simp only [processAddrs, workerEnvelopes, List.filterMap_append,
      List.mem_append] at h
    rcases h with h | h
    · exact processDest_envelopes senders m b (outs i) p h
    · exact ih _ _ p h

/-- C2 amended: every envelope handed to an Outbound Peer Worker is the
submitted envelope unchanged — the full original destination list included —
and only the fresh envelope the Retransmission Scheduler rebuilds targets
exactly one destination. -/
theorem worker_envelope_is_submitted_envelope (senders : List SocketAddr)
    (m : NetworkMessage) (outs : Nat → DestOutcome)
    (p : SocketAddr × NetworkMessage)
    (hp : p ∈ workerEnvelopes (processEnvelope senders m outs).2) :
    p.2 = m ∧ (retransmitFresh m p.1).addresses = [p.1] :=
  ⟨processAddrs_envelopes outs m m.addresses 0 senders p hp, rfl⟩

/-- Witness for the amended C2 at the counterexample's configuration. -/
theorem worker_envelope_is_submitted_envelope_witness :
    (addrA, msgAB).2 = msgAB ∧
    (retransmitFresh msgAB (addrA, msgAB).1).addresses = [(addrA, msgAB).1] :=
  worker_envelope_is_submitted_envelope [] msgAB
    (fun _ => ⟨true, ConnectSignal.success, true⟩) (addrA, msgAB) (by decide)

theorem getElemOpt_concat {α : Type} (l : List α) (x : α) :
    (l ++ [x])[l.length]? = some x := by
  induction l with
  | nil => rfl
  | cons a t ih => simp [ih]

theorem eraseIdx_concat {α : Type} (l : List α) (x : α) :
    (l ++ [x]).eraseIdx l.length = l := by
  induction l with
  | nil => rfl
  | cons a t ih => simpa [List.eraseIdx] using ih

/-- C5: the Retransmission Scheduler, on a received failure pair, appends one
pending entry whose timer is the fixed 30 ms delay and whose envelope has the
original sender and payload and exactly the single failed address as its
destination list, resubmitting nothing yet; when that entry's timer expires,
the step for the expiry removes it and resubmits exactly that fresh envelope
to the Transport Coordinator's inbound queue. The same step function serves
both select branches — new failures and expired timers. -/
theorem retransmitter_schedules_and_resubmits (pending : List PendingRetry)
    (mes : NetworkMessage) (addr : SocketAddr) :
    retransmitterStep pending (RetransmitterEvent.recvFailure mes addr) =
      (pending ++ [⟨retransmitDelayMs, retransmitFresh mes addr⟩], []) ∧
    retransmitDelayMs = 30 ∧
    (retransmitFresh mes addr).sender = mes.sender ∧
    (retransmitFresh mes addr).addresses = [addr] ∧
    (retransmitFresh mes addr).message = mes.message ∧
    retransmitterStep (pending ++ [⟨retransmitDelayMs, retransmitFresh mes addr⟩])
        (RetransmitterEvent.timerExpired pending.length) =
      (pending, [retransmitFresh mes addr]) := by
  refine ⟨rfl, rfl, rfl, rfl, rfl, ?_⟩
  simp [retransmitterStep, getElemOpt_concat, eraseIdx_concat]

theorem workerLoop_first_fail (address : SocketAddr) (queue : List NetworkMessage) :
    ∀ (writeOk : Nat → Bool) (i k : Nat) (hk : k < queue.length),
      writeOk (i + k) = false → (∀ j, j < k → writeOk (i + j) = true) →
      workerLoop address writeOk i queue =
        ((queue.take (k + 1)).map encMsg, [(queue.get ⟨k, hk⟩, address)], true) := by
  induction queue with
  | nil => intro writeOk i k hk; exact absurd hk (by simp)
  | cons q rest ih =>
    intro writeOk i k hk hfail hpre
    cases k with
    | zero =>
      have h0 : writeOk i = false := by simpa using hfail
      simp [workerLoop, h0]
    | succ k =>
      have h0 : writeOk i = true := by simpa using hpre 0 (Nat.succ_pos k)
      have hk' : k < rest.length := Nat.lt_of_succ_lt_succ hk
      have hfail' : writeOk (i + 1 + k) = false := by
        rw [show i + 1 + k = i + (k + 1) by omega]; exact hfail
      have hpre' : ∀ j, j < k → writeOk (i + 1 + j) = true := by
        intro j hj
        rw [show i + 1 + j = i + (j + 1) by omega]
        exact hpre (j + 1) (Nat.succ_lt_succ hj)
      simp [workerLoop, h0, ih writeOk (i + 1) k hk' hfail' hpre',
        List.take_succ_cons]

/-- C8: if the `k`-th write of an Outbound Peer Worker fails and every write
before it succeeded, the worker sends exactly one failure pair — the failed
message together with its own single destination — to the Retransmission
Scheduler and terminates: the frames it ever attempted are precisely the
first `k + 1` queued messages, each serialized and written exactly once
(no message after the failure is touched and the failed write is never
retried). -/
theorem worker_write_failure_forwards_and_terminates (address : SocketAddr)
    (writeOk : Nat → Bool) (queue : List NetworkMessage) (k : Nat)
    (hk : k < queue.length) (hfail : writeOk k = false)
    (hpre : ∀ j, j < k → writeOk j = true) :
    workerLoop address writeOk 0 queue =
      ((queue.take (k + 1)).map encMsg, [(queue.get ⟨k, hk⟩, address)], true) :=
  workerLoop_first_fail address queue writeOk 0 k hk (by simpa using hfail)
    fun j hj => by simpa using hpre j hj

/-- Witness for C8: a two-message queue whose second write fails. -/
theorem worker_write_failure_witness :
    workerLoop addrA (fun i => i == 0) 0 [msgAB, msgAB] =
      (([msgAB, msgAB].take 2).map encMsg,
        [([msgAB, msgAB].get ⟨1, by decide⟩, addrA)], true) :=
  worker_write_failure_forwards_and_terminates addrA (fun i => i == 0)
    [msgAB, msgAB] 1 (by decide) (by decide)
    fun j hj => by
      have hj0 : j = 0 := Nat.lt_one_iff.mp hj
      subst hj0; rfl

/-- C10: when a frame decodes but the delivery sink's send fails, the Inbound
Peer Worker drops that one message and carries on with the remaining frames
of the same connection — the delivered list and the exit of the loop are
those of the rest of the stream, so the connection is not closed by the
failed delivery. -/
theorem inbound_deliver_failure_continues (deliverOk : Nat → Bool) (i : Nat)
    (bytes : List Nat) (msg : NetworkMessage) (rest : List FrameRead)
    (hdec : decodeMsg bytes = some msg) (hfail : deliverOk i = false) :
    inboundWorker deliverOk i (FrameRead.okFrame bytes :: rest) =
      inboundWorker deliverOk (i + 1) rest := by
  simp [inboundWorker, hdec, hfail]

/-- Witness for C10: one well-formed frame, a sink that always rejects; the
worker ends exactly as it would on the empty remainder of the stream. -/
theorem inbound_deliver_failure_continues_witness :
    inboundWorker (fun _ => false) 0 [FrameRead.okFrame (encMsg msgAB)] =
      inboundWorker (fun _ => false) (0 + 1) [] :=
  inbound_deliver_failure_continues (fun _ => false) 0 (encMsg msgAB) msgAB []
    (by decide) rfl

/-- C1 (the code's actual behavior): a frame that fails to decode makes the
Inbound Peer Worker panic — `bincode::deserialize(..).unwrap()` — instead of
dropping the frame and carrying on: on a malformed first frame the worker
delivers nothing and aborts, losing even a subsequent well-formed frame on
the same connection. -/
theorem decode_failure_panics_worker :
    decodeMsg [] = none ∧
    decodeMsg (encMsg msgAB) = some msgAB ∧
    inboundWorker (fun _ => true) 0
        [FrameRead.okFrame [], FrameRead.okFrame (encMsg msgAB)] =
      ([], WorkerExit.panicked) := by
  exact ⟨rfl, by decide, by decide⟩

/-- Witness for C5 at an empty pending list and a concrete failure pair. -/
theorem retransmitter_schedules_and_resubmits_witness :
    retransmitterStep [] (RetransmitterEvent.recvFailure msgAB addrB) =
      ([⟨retransmitDelayMs, retransmitFresh msgAB addrB⟩], []) ∧
    retransmitDelayMs = 30 ∧
    (retransmitFresh msgAB addrB).sender = msgAB.sender ∧
    (retransmitFresh msgAB addrB).addresses = [addrB] ∧
    (retransmitFresh msgAB addrB).message = msgAB.message ∧
    retransmitterStep [⟨retransmitDelayMs, retransmitFresh msgAB addrB⟩]
        (RetransmitterEvent.timerExpired 0) =
      ([], [retransmitFresh msgAB addrB]) :=
  retransmitter_schedules_and_resubmits [] msgAB addrB
